import Mathlib

/-!
Verification of the pulse-optimization core against its specification.

Shallow embedding of `romanwixinger/pulse-optimization`, covering the
pulse basis (`pulse_opt/pulses/basis.py`, `pulse_opt/pulses/pulse_factory.py`),
the loss evaluator (`pulse_opt/integrals/losses.py`,
`pulse_opt/integrands/weights.py`, `pulse_opt/integrands/definitions.py`),
the batch harness (`main/integrals/minimize_integrals.py`,
`pulse_opt/integrals/utilities.py`) and the argument constructor
(`pulse_opt/configuration/argument_constructor.py`).

Python floats are idealized as rationals (`ℚ`), so all definitions are
executable and all concrete evaluations are decidable.  Fallible Python code
(raised exceptions) is embedded with `Except`.
-/

namespace PulseOpt

/-- Python exceptions that the embedded code can raise.  The constructor
`valueError` is the "invalid coefficients" error of
`PulseFactory._verify_coefficients`; it carries the offending coefficient
vector.  The constructor `keyError` models a failing dictionary lookup such as
`lookup[self.weights]` in `Loss.absolute_loss`. -/
inductive PyError where
  | valueError (message : String) (coefficients : List ℚ)
  | keyError (key : String)
  | runtimeError (message : String)
  | otherException (message : String)
  deriving DecidableEq, Repr

/-- Externally consumed pulse object (`quantum_gates.pulses.Pulse`),
modelled at the interface boundary: a waveform/parametrization pair plus the
`perform_checks` flag that is forwarded to it by `PulseFactory.sample`. -/
structure Pulse where
  pulse : ℚ → ℚ
  parametrization : ℚ → ℚ
  perform_checks : Bool

/-- One equality-constraint record in the format used by
`scipy.optimize.minimize`: the Python code builds dictionaries
`{"type": "eq", "fun": residual}`; `ctype` embeds the `"type"` entry and
`residual` the `"fun"` entry. -/
structure EqConstraint where
  ctype : String
  residual : List ℚ → ℚ

/-- Basis of the pulse waveform, from `Basis.__init__`
(`pulse_opt/pulses/basis.py`, lines 29-38): basis functions `f_i`, their
antiderivatives `F_i`, the shift, and the per-coefficient bounds.
The field `has_vanishing_endpoints` is modelled from the spec: the snapshot
carries a stale revision of `basis.py` whose `__init__` does not accept this flag,
while every caller in the repository (`power_factory.py` line 32,
`fourier_factory.py`, `gaussian_factory.py`, `tests/pulses/test_basis.py`
line 16) passes it to `Basis(...)`. -/
structure Basis where
  functions : List (ℚ → ℚ)
  integrals : List (ℚ → ℚ)
  shift : ℚ
  bounds : List (Option ℚ × Option ℚ)
  has_vanishing_endpoints : Bool

/-- Embeds `self.number_of_functions = len(functions)` from `Basis.__init__`. -/
def Basis.number_of_functions (b : Basis) : Nat :=
  b.functions.length

/-- Embeds `Basis.areas` (basis.py lines 47-56):
`areas = [F(1.0 - shift) - F(0.0 - shift) for F in integrals]`. -/
def Basis.areas (b : Basis) : List ℚ :=
  b.integrals.map (fun F => F (1 - b.shift) - F (0 - b.shift))

/-- Embeds `Basis.area_of_waveform` (basis.py lines 58-70):
`sum(coeff * area for coeff, area in zip(coefficients, areas))`. -/
def Basis.area_of_waveform (coefficients areas : List ℚ) : ℚ :=
  ((coefficients.zip areas).map (fun p => p.1 * p.2)).sum

/-- Embeds `Basis.waveform` (basis.py lines 72-88):
`w(x) = sum(coeff * f(x - shift) for coeff, f in zip(coefficients, functions))`. -/
def Basis.waveform (b : Basis) (coefficients : List ℚ) : ℚ → ℚ :=
  fun x => ((coefficients.zip b.functions).map (fun p => p.1 * p.2 (x - b.shift))).sum

/-- Embeds `Basis.parametrization` (basis.py lines 90-108):
`p(x) = sum(coeff*F(x-shift) - coeff*F(0.0-shift) for coeff, F in zip(coefficients, integrals))`. -/
def Basis.parametrization (b : Basis) (coefficients : List ℚ) : ℚ → ℚ :=
  fun x =>
    ((coefficients.zip b.integrals).map
      (fun p => p.1 * p.2 (x - b.shift) - p.1 * p.2 (0 - b.shift))).sum

/-- Embeds `Basis.coefficient_are_valid` (basis.py lines 110-122): the
coefficients are valid when their length matches the number of basis functions
and the waveform area is `1` up to the tolerance.  The tolerance parameter
`abs_error` is modelled from the spec (`coefficient_are_valid(coefficients,
tolerance)`) and from the call site `pulse_factory.py` line 50
(`coefficient_are_valid(coefficients, abs_error=self.abs_error)`): the
stale `basis.py` of the snapshot hard-codes `1e-6` while its caller passes the
`abs_error` of the factory. -/
def Basis.coefficient_are_valid (b : Basis) (coefficients : List ℚ) (abs_error : ℚ) : Bool :=
  if coefficients.length ≠ b.number_of_functions then false
  else if |Basis.area_of_waveform coefficients b.areas - 1| > abs_error then false
  else true

/-- Helper for `Basis.default_coefficients`: the loop
`for i, area in enumerate(areas): if abs(area) > 1e-3: ...` returns the first
index whose area is nonvanishing (`|area| > 1e-3`) together with that area. -/
def firstNonvanishingArea : List ℚ → Option (Nat × ℚ)
  | [] => none
  | a :: rest =>
    if |a| > 1/1000 then some (0, a)
    else (firstNonvanishingArea rest).map (fun p => (p.1 + 1, p.2))

/-- Embeds `Basis.default_coefficients` (basis.py lines 124-139): starts from
`np.zeros_like(areas)`, sets the entry at the first index with
`abs(area) > 1e-3` to `1.0 / area` and returns; raises when every area is
vanishing. -/
def Basis.default_coefficients (b : Basis) : Except String (List ℚ) :=
  match firstNonvanishingArea b.areas with
  | some p => .ok ((List.replicate b.areas.length 0).set p.1 (1 / p.2))
  | none =>
    .error "Could not generate default coefficient, as all basis functions have vanishing areas."

/-- Embeds `Basis.constraints`.  Modelled from the spec: the deciding revision
of `Basis.constraints` (the list form) is missing from the snapshot — the
stale `basis.py` (lines 40-45) returns one area-constraint dictionary and has
no `has_vanishing_endpoints`, while the tests of the repository require a list
(`tests/pulses/test_basis.py` line 23) and its callers construct `Basis` with
the endpoint flag.  Per the spec (section 4.1): always includes the
"area = 1" equality constraint, and additionally "waveform(0) = 0" and
"waveform(1) = 0" when `has_vanishing_endpoints` is set; each constraint maps
a coefficient vector to a residual that must equal zero at a valid solution. -/
def Basis.constraints (b : Basis) : List EqConstraint :=
  ⟨"eq", fun c => Basis.area_of_waveform c b.areas - 1⟩ ::
    (if b.has_vanishing_endpoints then
      [⟨"eq", fun c => b.waveform c 0⟩, ⟨"eq", fun c => b.waveform c 1⟩]
    else [])

/-- Factory for pulses, from `pulse_opt/pulses/pulse_factory.py` lines 23-25:
holds the basis and the `perform_checks` flag. -/
structure PulseFactory where
  basis : Basis
  perform_checks : Bool

/-- Embeds the class attribute `PulseFactory.abs_error = 1e-2`
(pulse_factory.py line 21). -/
def PulseFactory.absError : ℚ := 1/100

/-- Embeds `PulseFactory.sample` together with `_verify_coefficients`
(pulse_factory.py lines 27-51): `sample` first calls
`self._verify_coefficients(coefficients)` — unconditionally, whatever the
value of `perform_checks` — which raises
`ValueError(f"Expected valid coefficients, ...")` carrying the coefficient
vector when `coefficient_are_valid(coefficients, abs_error=self.abs_error)`
is false; otherwise it returns the `Pulse` built from the waveform and
parametrization of the basis, forwarding `perform_checks` to the `Pulse`
constructor. -/
def PulseFactory.sample (f : PulseFactory) (coefficients : List ℚ) : Except PyError Pulse :=
  if f.basis.coefficient_are_valid coefficients PulseFactory.absError then
    .ok ⟨f.basis.waveform coefficients, f.basis.parametrization coefficients, f.perform_checks⟩
  else
    .error (.valueError "Expected valid coefficients, but found otherwise." coefficients)

/- ===================== Integrands and weights ===================== -/

/-- Keys of `integrand_lookup` (`pulse_opt/integrands/definitions.py`
lines 11-21), in insertion order: the eight fixed integrands. -/
def integrandNames : List String :=
  ["sin(theta/a)**2",
   "sin(theta/(2*a))**4",
   "sin(theta/a)*sin(theta/(2*a))**2",
   "sin(theta/(2*a))**2",
   "cos(theta/a)**2",
   "sin(theta/a)*cos(theta/a)",
   "sin(theta/a)",
   "cos(theta/(2*a))**2"]

/-- Embeds `equal_weight_lookup` (`pulse_opt/integrands/weights.py` line 17):
weight `1.0` for every integrand. -/
def equalWeightLookup : List (String × ℚ) :=
  integrandNames.map (fun k => (k, 1))

/-- Embeds `zero_weight_lookup` (weights.py line 18): weight `0.0` for every
integrand. -/
def zeroWeightLookup : List (String × ℚ) :=
  integrandNames.map (fun k => (k, 0))

/-- Embeds `deterministic_weight_lookup` (weights.py lines 19-23). -/
def deterministicWeightLookup : List (String × ℚ) :=
  [("sin(theta/a)**2", 1), ("sin(theta/a)", 1), ("cos(theta/(2*a))**2", 1)]

/-- Embeds `variance_weight_lookup` (weights.py lines 24-28). -/
def varianceWeightLookup : List (String × ℚ) :=
  [("sin(theta/a)**2", 1), ("sin(theta/(2*a))**4", 1), ("cos(theta/a)**2", 1)]

/-- Embeds `covariance_weight_lookup` (weights.py lines 29-34). -/
def covarianceWeightLookup : List (String × ℚ) :=
  [("sin(theta/a)*sin(theta/(2*a))**2", 1), ("sin(theta/(2*a))**2", 1),
   ("sin(theta/a)*cos(theta/a)", 1), ("sin(theta/a)", 1)]

/-- Embeds `variance_plus_deterministic_weight_lookup` (weights.py
lines 35-41). -/
def variancePlusDeterministicWeightLookup : List (String × ℚ) :=
  [("sin(theta/a)**2", 2), ("sin(theta/a)", 1), ("cos(theta/(2*a))**2", 1),
   ("sin(theta/(2*a))**4", 1), ("cos(theta/a)**2", 1)]

/-- Embeds the scheme lookup `lookup` (weights.py lines 43-50); an unknown
scheme name yields `none`, corresponding to a Python `KeyError` at the access
`lookup[self.weights]`. -/
def weightLookup (scheme : String) : Option (List (String × ℚ)) :=
  if scheme = "equal" then some equalWeightLookup
  else if scheme = "deterministic" then some deterministicWeightLookup
  else if scheme = "variance" then some varianceWeightLookup
  else if scheme = "covariance" then some covarianceWeightLookup
  else if scheme = "variance_plus_deterministic" then some variancePlusDeterministicWeightLookup
  else if scheme = "zero" then some zeroWeightLookup
  else none

/- ===================== Loss ===================== -/

/-- Embeds `Loss.absolute_loss` (`pulse_opt/integrals/losses.py` lines 85-107):
samples a pulse from the factory (which may raise for invalid coefficients),
builds the integrator from the pulse, looks up the weight scheme
(`lookup[self.weights]`, a `KeyError` for unknown names), and accumulates
`loss += weight * norm(integrator.integrate(integrand, theta, a))` over the
integrands of the scheme.  The external numerical integrator is the abstract
black-box parameter `integrate`. -/
def absoluteLoss (f : PulseFactory) (weights : String) (norm : ℚ → ℚ)
    (integrate : Pulse → String → ℚ → ℚ → ℚ) (theta a : ℚ)
    (coefficients : List ℚ) : Except PyError ℚ :=
  match f.sample coefficients with
  | .error e => .error e
  | .ok pulse =>
    match weightLookup weights with
    | none => .error (.keyError weights)
    | some weight_lookup =>
      .ok (weight_lookup.foldl
        (fun loss kv => loss + kv.2 * norm (integrate pulse kv.1 theta a)) 0)

/-- State of a constructed `Loss` instance: the attributes set by
`Loss.__init__` (losses.py lines 66-83) that later code reads. -/
structure LossState where
  weights : String
  theta : ℚ
  a : ℚ
  has_vanishing_endpoints : Bool
  default_coefficients : List ℚ
  default_loss : ℚ

/-- Embeds `Loss.__init__` (losses.py lines 66-83): stores the arguments,
reads `self.factory.basis.default_coefficients` (which may raise when all
basis areas vanish), and finally computes
`self.default_loss = self.__call__(self.default_coefficients)` — so an
unknown weighting-scheme name already raises inside the constructor, at the
`lookup[self.weights]` access of `absolute_loss`. -/
def lossInit (f : PulseFactory) (weights : String) (norm : ℚ → ℚ)
    (integrate : Pulse → String → ℚ → ℚ → ℚ) (theta a : ℚ)
    (hve : Bool) : Except PyError LossState :=
  match f.basis.default_coefficients with
  | .error msg => .error (.otherException msg)
  | .ok dc =>
    match absoluteLoss f weights norm integrate theta a dc with
    | .error e => .error e
    | .ok dl => .ok ⟨weights, theta, a, hve, dc, dl⟩

/- ===================== JSON-like values and the results table ============ -/

/-- Values stored in the Python dictionaries that flow through the harness
(`loss_arg`, optimizer results, configuration): strings, numbers, or nested
dictionaries. -/
inductive JVal where
  | str : String → JVal
  | num : ℚ → JVal
  | obj : List (String × JVal) → JVal

/-- Embeds the recursive body of `flatten_dict`
(`pulse_opt/integrals/utilities.py` lines 54-67) on the entry list of a
dictionary: `new_key = parent_key + sep + k if parent_key else k`; nested
dictionaries are flattened recursively, other values are emitted as they are. -/
def flattenObj (sep : String) : String → List (String × JVal) → List (String × JVal)
  | _, [] => []
  | parent, (k, JVal.obj entries) :: rest =>
    flattenObj sep (if parent = "" then k else parent ++ sep ++ k) entries
      ++ flattenObj sep parent rest
  | parent, (k, v) :: rest =>
    (if parent = "" then k else parent ++ sep ++ k, v) :: flattenObj sep parent rest

/-- Embeds `flatten_dict` with default parent key and separator (the dot),
including its `None`
guard (utilities.py lines 57-59): `flatten_dict(None)` logs a warning and
returns the empty dictionary. -/
def flattenDict (d : Option (List (String × JVal))) : List (String × JVal) :=
  match d with
  | none => []
  | some entries => flattenObj "." "" entries

/-- Embeds `add_prefix` (`pulse_opt/integrals/utilities.py` lines 97-103):
`{(prefix + key): value for key, value in flat_lookup.items()}` — the prefix
is concatenated directly onto each key, with no separator in between. -/
def addPrefix (flat_lookup : List (String × JVal)) (p : String) : List (String × JVal) :=
  flat_lookup.map (fun kv => (p ++ kv.1, kv.2))

/-- Python dictionary assignment `d[k] = v`: updates the value in place when
the key exists (preserving insertion order), appends the pair otherwise. -/
def dictUpdate {α : Type} (d : List (String × α)) (k : String) (v : α) : List (String × α) :=
  if d.any (fun p => p.1 = k) then d.map (fun p => if p.1 = k then (k, v) else p)
  else d ++ [(k, v)]

/-- Python dictionary merge `d1 | d2`: entries of `d2` update or extend `d1`. -/
def dictUnion (d1 d2 : List (String × JVal)) : List (String × JVal) :=
  d2.foldl (fun acc kv => dictUpdate acc kv.1 kv.2) d1

/-- Python dictionary read `d[k]` as a partial lookup: the value at the first
entry with the given key, `none` when the key is absent. -/
def pyLookup {α : Type} (d : List (String × α)) (k : String) : Option α :=
  (d.find? (fun p => p.1 = k)).map Prod.snd

/-- Result record produced by `simulation`
(`main/integrals/minimize_integrals.py` lines 119-128): the optimizer output
(`None` on failure), the original argument dictionary, and the success flag. -/
structure SimResult where
  res : Option (List (String × JVal))
  loss_arg : List (String × JVal)
  successful : Bool

/-- Embeds `simulation` (`main/integrals/minimize_integrals.py`
lines 113-128).  The loss is constructed (with its attribute reads) before
the `try:` block, so a constructor failure propagates; the optimizer call
sits inside `try:` with `except RuntimeError` and `except Exception` handlers
that both return `{"res": None, "loss_arg": loss_arg, "successful": False}`;
on success the record has the result and `successful=True`. -/
def simulation {L : Type} (loss_init : Except PyError L)
    (optimizer : L → Except PyError (List (String × JVal)))
    (loss_arg : List (String × JVal)) : Except PyError SimResult :=
  match loss_init with
  | .error e => .error e
  | .ok loss =>
    match optimizer loss with
    | .error _ => .ok ⟨none, loss_arg, false⟩
    | .ok res => .ok ⟨some res, loss_arg, true⟩

/-- Run-level configuration fields read by `create_table` (utilities.py
lines 82-87): the name, the description, and the loss and loss-path entries
of the content block. -/
structure RunConfig where
  name : String
  description : String
  loss : String
  loss_path : String

/-- Embeds the `config_info` dictionary built inside `create_table`
(utilities.py lines 82-87). -/
def configInfo (config : RunConfig) : List (String × JVal) :=
  [("name", .str config.name), ("description", .str config.description),
   ("loss", .str config.loss), ("loss_path", .str config.loss_path)]

/-- Embeds the row construction of `create_table` (utilities.py lines 88-93):
`add_prefix(config_info, "config") | add_prefix(flatten_dict(loss_arg), "args")
| add_prefix(flatten_dict(res), "results")`. -/
def createRow (config : RunConfig) (r : SimResult) : List (String × JVal) :=
  dictUnion
    (dictUnion (addPrefix (configInfo config) "config")
      (addPrefix (flattenDict (some r.loss_arg)) "args"))
    (addPrefix (flattenDict r.res) "results")

/-- Embeds `create_table` (utilities.py lines 70-94): one flattened row per
result record. -/
def create_table (results : List SimResult) (config : RunConfig) :
    List (List (String × JVal)) :=
  results.map (createRow config)

/- ===================== Argument constructor ===================== -/

/-- Embeds `itertools.product(*options)` as used by `construct_args`: all
combinations, with the rightmost list varying fastest. -/
def itertoolsProduct {α : Type} : List (List α) → List (List α)
  | [] => [[]]
  | l :: ls => l.flatMap (fun x => (itertoolsProduct ls).map (fun c => x :: c))

/-- Embeds `construct_args`
(`pulse_opt/configuration/argument_constructor.py` lines 7-43): for each
combination in the Cartesian product of the variable-argument option lists,
start from a copy of `static_args` and assign `arg[key] = combination[i]` for
each variable key in order. -/
def construct_args (static_args : List (String × ℚ))
    (variable_args : List (String × List ℚ)) : List (List (String × ℚ)) :=
  (itertoolsProduct (variable_args.map Prod.snd)).map
    (fun combination =>
      ((variable_args.map Prod.fst).zip combination).foldl
        (fun arg kv => dictUpdate arg kv.1 kv.2) static_args)

/- ===================== Filename construction ===================== -/

/-- Looks a key up in an association list of rendered values; the Python
callers of `construct_filename` assert beforehand that every variable argument
occurs in `loss_arg`, so the default is never reached on the asserted inputs. -/
def lookupStr (d : List (String × String)) (k : String) : String :=
  ((d.find? (fun p => p.1 = k)).map Prod.snd).getD ""

/-- Embeds `construct_filename` (`pulse_opt/integrals/utilities.py`
lines 249-260):
the underscore-join of the key-underscore-value pairs over `variable_args`,
spliced into the pattern loss, underscore, pairs, dot, filetype.  Dictionary values
are embedded already rendered to strings (Python interpolates them with
`str`). -/
def construct_filename (loss : String) (variable_args : List String)
    (loss_arg : List (String × String)) (filetype : String) : String :=
  let variable_args_as_key_value_pairs :=
    String.intercalate "_" (variable_args.map (fun key => key ++ "_" ++ lookupStr loss_arg key))
  loss ++ "_" ++ variable_args_as_key_value_pairs ++ "." ++ filetype

/- ===================== Demonstration instances ===================== -/

/-- One-function demonstration basis: `f(x) = 1`, `F(x) = x`, no shift.
Its single basis function has area `1` on `[0,1]`. -/
def demoBasis : Basis where
  functions := [fun _ => 1]
  integrals := [fun x => x]
  shift := 0
  bounds := [(none, none)]
  has_vanishing_endpoints := false

/-- A copy of the demonstration basis with the endpoint-vanishing flag set. -/
def demoVanishingBasis : Basis where
  functions := [fun _ => 1]
  integrals := [fun x => x]
  shift := 0
  bounds := [(none, none)]
  has_vanishing_endpoints := true

/-- Demonstration factory over `demoBasis` with verification disabled
(`perform_checks=False`), as in the read-path flows. -/
def demoFactoryUnchecked : PulseFactory where
  basis := demoBasis
  perform_checks := false

/-- Demonstration run configuration for table-construction evaluations. -/
def demoConfig : RunConfig where
  name := "run1"
  description := "demo run"
  loss := "PowerLoss"
  loss_path := "pulse_opt.integrals.losses"

/-- Pulse sampled from `demoFactoryUnchecked` at the valid coefficients `[1]`. -/
def demoPulse : Pulse where
  pulse := demoBasis.waveform [1]
  parametrization := demoBasis.parametrization [1]
  perform_checks := false

/-- Concrete stand-in for the external black-box integrator. -/
def demoIntegrate : Pulse → String → ℚ → ℚ → ℚ :=
  fun _ _ _ _ => 0

/-- Concrete successful result record used to evaluate `create_table`. -/
def demoResLookup : SimResult where
  res := some [("x", JVal.num 1)]
  loss_arg := [("theta", JVal.num (314/100))]
  successful := true

/-- Batch of five tasks in which the optimizer of task 3 deterministically raises
(the failure-isolation scenario of the spec): each item is the `loss_arg`
dictionary together with the optimizer outcome for that task. -/
def demoItems : List (List (String × JVal) × (Unit → Except PyError (List (String × JVal)))) :=
  [([("n", JVal.num 1)], fun _ => Except.ok [("x", JVal.num 1)]),
   ([("n", JVal.num 2)], fun _ => Except.ok [("x", JVal.num 1)]),
   ([("n", JVal.num 3)], fun _ => Except.error (PyError.runtimeError "Optimizer failed to converge.")),
   ([("n", JVal.num 4)], fun _ => Except.ok [("x", JVal.num 1)]),
   ([("n", JVal.num 5)], fun _ => Except.ok [("x", JVal.num 1)])]

/-- Outcome of running `simulation` over the five demonstration tasks. -/
def demoBatch : List (Except PyError SimResult) :=
  demoItems.map (fun it => simulation (Except.ok ()) it.2 it.1)

/-- Expected result records for the five demonstration tasks: one record per
task, task 3 converted into a `successful=False` record. -/
def demoBatchResults : List SimResult :=
  [⟨some [("x", JVal.num 1)], [("n", JVal.num 1)], true⟩,
   ⟨some [("x", JVal.num 1)], [("n", JVal.num 2)], true⟩,
   ⟨none, [("n", JVal.num 3)], false⟩,
   ⟨some [("x", JVal.num 1)], [("n", JVal.num 4)], true⟩,
   ⟨some [("x", JVal.num 1)], [("n", JVal.num 5)], true⟩]

/- ===================== Helper lemmas on zipped sums ===================== -/

lemma zip_map_sub_sum (c : List ℚ) (F : List (ℚ → ℚ)) (x y : ℚ) :
    ((c.zip F).map (fun p => p.1 * p.2 x - p.1 * p.2 y)).sum
      = ((c.zip (F.map (fun f => f x - f y))).map (fun p => p.1 * p.2)).sum := by
  induction c generalizing F with
  | nil => simp
  | cons a c ih =>
    cases F with
    | nil => simp
    | cons f F =>
      simp only [List.zip_cons_cons, List.map_cons, List.sum_cons, List.map_map, ih]
      ring_nf

lemma parametrization_zero (b : Basis) (c : List ℚ) :
    b.parametrization c 0 = 0 := by
  unfold Basis.parametrization
  have h : ∀ F : List (ℚ → ℚ),
      ((c.zip F).map (fun p => p.1 * p.2 (0 - b.shift) - p.1 * p.2 (0 - b.shift))).sum = 0 := by
    intro F
    induction c generalizing F with
    | nil => simp
    | cons a c ih =>
      cases F with
      | nil => simp
      | cons f F => simp [ih]
  exact h b.integrals

lemma parametrization_one (b : Basis) (c : List ℚ) :
    b.parametrization c 1 = Basis.area_of_waveform c b.areas := by
  unfold Basis.parametrization Basis.area_of_waveform Basis.areas
  exact zip_map_sub_sum c b.integrals (1 - b.shift) (0 - b.shift)

/-- C4: the parametrization built by `Basis.parametrization` always vanishes
at `x = 0`, and whenever the coefficients satisfy the area constraint
(`area_of_waveform(coefficients, areas) = 1`) it reaches exactly `1` at
`x = 1`. -/
theorem parametrization_endpoints (b : Basis) (c : List ℚ) :
    b.parametrization c 0 = 0 ∧
      (Basis.area_of_waveform c b.areas = 1 → b.parametrization c 1 = 1) := by
  refine ⟨parametrization_zero b c, fun h => ?_⟩
  rw [parametrization_one, h]

/-- Witness for C4: at the concrete basis `demoBasis` with coefficients `[1]`,
the area constraint holds and the theorem yields `p(0) = 0` and `p(1) = 1`. -/
theorem parametrization_endpoints_witness :
    demoBasis.parametrization [1] 0 = 0 ∧ demoBasis.parametrization [1] 1 = 1 :=
  ⟨(parametrization_endpoints demoBasis [1]).1,
   (parametrization_endpoints demoBasis [1]).2 (by
      show Basis.area_of_waveform [1] demoBasis.areas = 1
      norm_num [Basis.area_of_waveform, Basis.areas, demoBasis])⟩

/-- C1, counterexample: on the concrete factory `demoFactoryUnchecked`
verification is disabled (`perform_checks = False`) and the coefficient
vector `[2]` is invalid (waveform area `2`), yet `sample` raises the
invalid-coefficients `ValueError` instead of returning a
waveform/parametrization pair: `_verify_coefficients` runs unconditionally,
it is not gated by `perform_checks`. -/
theorem sample_checks_disabled_counterexample :
    demoFactoryUnchecked.perform_checks = false ∧
    demoFactoryUnchecked.basis.coefficient_are_valid [2] PulseFactory.absError = false ∧
    demoFactoryUnchecked.sample [2] =
      Except.error (PyError.valueError "Expected valid coefficients, but found otherwise." [2]) := by
  have hinvalid :
      demoFactoryUnchecked.basis.coefficient_are_valid [2] PulseFactory.absError = false := by
    norm_num [demoFactoryUnchecked, Basis.coefficient_are_valid, Basis.area_of_waveform,
      Basis.areas, Basis.number_of_functions, demoBasis, PulseFactory.absError]
  refine ⟨rfl, hinvalid, ?_⟩
  simp [PulseFactory.sample, hinvalid]

/-- C1, amended: `PulseFactory.sample` fails with the invalid-coefficients
error carrying the offending vector exactly when
`basis.coefficient_are_valid(coefficients, abs_error=1e-2)` rejects the
vector — independently of `perform_checks`, which is only forwarded to the
constructed `Pulse`; when the vector is accepted, `sample` returns the
waveform/parametrization pair. -/
theorem sample_always_verifies (f : PulseFactory) (c : List ℚ) :
    (f.basis.coefficient_are_valid c PulseFactory.absError = false →
      f.sample c =
        Except.error (PyError.valueError "Expected valid coefficients, but found otherwise." c)) ∧
    (f.basis.coefficient_are_valid c PulseFactory.absError = true →
      f.sample c =
        Except.ok ⟨f.basis.waveform c, f.basis.parametrization c, f.perform_checks⟩) := by
  constructor
  · intro h
    simp [PulseFactory.sample, h]
  · intro h
    simp [PulseFactory.sample, h]

/-- Witness for C1 (amended): the vector `[1]` is accepted by
`demoFactoryUnchecked` and `sample` returns the pulse pair, carrying
`perform_checks = false` through to the pulse. -/
theorem sample_always_verifies_witness :
    demoFactoryUnchecked.basis.coefficient_are_valid [1] PulseFactory.absError = true ∧
    demoFactoryUnchecked.sample [1] =
      Except.ok ⟨demoBasis.waveform [1], demoBasis.parametrization [1], false⟩ := by
  have hvalid :
      demoFactoryUnchecked.basis.coefficient_are_valid [1] PulseFactory.absError = true := by
    norm_num [demoFactoryUnchecked, Basis.coefficient_are_valid, Basis.area_of_waveform,
      Basis.areas, Basis.number_of_functions, demoBasis, PulseFactory.absError]
  exact ⟨hvalid, (sample_always_verifies demoFactoryUnchecked [1]).2 hvalid⟩

/-- C2: the constraints accessor always contains the equality constraint whose
residual vanishes exactly when the waveform area over `[0,1]` equals `1`;
when `has_vanishing_endpoints` is set it additionally contains the equality
constraints whose residuals vanish exactly at `waveform(0) = 0` and
`waveform(1) = 0`; every record is an equality constraint, and without the
flag the area constraint is the only one. -/
theorem constraints_content (b : Basis) :
    (∃ con ∈ b.constraints, con.ctype = "eq" ∧
      ∀ c, (con.residual c = 0 ↔ Basis.area_of_waveform c b.areas = 1)) ∧
    (b.has_vanishing_endpoints = true →
      (∃ con ∈ b.constraints, con.ctype = "eq" ∧
        ∀ c, (con.residual c = 0 ↔ b.waveform c 0 = 0)) ∧
      (∃ con ∈ b.constraints, con.ctype = "eq" ∧
        ∀ c, (con.residual c = 0 ↔ b.waveform c 1 = 0)) ∧
      b.constraints.length = 3) ∧
    (b.has_vanishing_endpoints = false → b.constraints.length = 1) ∧
    (∀ con ∈ b.constraints, con.ctype = "eq") := by
  refine ⟨?_, ?_, ?_, ?_⟩
  · refine ⟨⟨"eq", fun c => Basis.area_of_waveform c b.areas - 1⟩, ?_, rfl, ?_⟩
    · simp [Basis.constraints]
    · intro c
      show Basis.area_of_waveform c b.areas - 1 = 0 ↔ Basis.area_of_waveform c b.areas = 1
      exact sub_eq_zero
  · intro h
    refine ⟨⟨⟨"eq", fun c => b.waveform c 0⟩, ?_, rfl, fun c => Iff.rfl⟩,
            ⟨⟨"eq", fun c => b.waveform c 1⟩, ?_, rfl, fun c => Iff.rfl⟩, ?_⟩
    · simp [Basis.constraints, h]
    · simp [Basis.constraints, h]
    · simp [Basis.constraints, h]
  · intro h
    simp [Basis.constraints, h]
  · intro con hcon
    unfold Basis.constraints at hcon
    rcases List.mem_cons.mp hcon with rfl | htail
    · rfl
    · cases hb : b.has_vanishing_endpoints
      · rw [hb] at htail
        simp at htail
      · rw [hb] at htail
        simp only [if_true] at htail
        rcases List.mem_cons.mp htail with rfl | htail2
        · rfl
        · rcases List.mem_cons.mp htail2 with rfl | htail3
          · rfl
          · simp at htail3

/-- Witness for C2: on the concrete basis `demoVanishingBasis` the flag is
set and the theorem yields the two endpoint constraints and the
three-element constraint list. -/
theorem constraints_content_witness :
    demoVanishingBasis.has_vanishing_endpoints = true ∧
    (∃ con ∈ demoVanishingBasis.constraints, con.ctype = "eq" ∧
      ∀ c, (con.residual c = 0 ↔ demoVanishingBasis.waveform c 0 = 0)) ∧
    demoVanishingBasis.constraints.length = 3 :=
  ⟨rfl, ((constraints_content demoVanishingBasis).2.1 rfl).1,
    ((constraints_content demoVanishingBasis).2.1 rfl).2.2⟩

lemma firstNonvanishingArea_none_iff (l : List ℚ) :
    firstNonvanishingArea l = none ↔ ∀ a ∈ l, |a| ≤ 1/1000 := by
  induction l with
  | nil => simp [firstNonvanishingArea]
  | cons x rest ih =>
    unfold firstNonvanishingArea
    by_cases hx : 1/1000 < |x|
    · rw [if_pos hx]
      exact ⟨fun h => absurd h (by simp),
        fun hall => absurd (hall x (by simp)) (not_le.mpr hx)⟩
    · rw [if_neg hx]
      push_neg at hx
      rw [Option.map_eq_none', ih]
      simp only [List.forall_mem_cons]
      exact ⟨fun h => ⟨hx, h⟩, fun h => h.2⟩

lemma firstNonvanishingArea_some (l : List ℚ) (i : Nat) (a : ℚ)
    (h : firstNonvanishingArea l = some (i, a)) :
    ∃ hi : i < l.length,
      l.get ⟨i, hi⟩ = a ∧ 1/1000 < |a| ∧
      ∀ j, ∀ hj : j < l.length, j < i → |l.get ⟨j, hj⟩| ≤ 1/1000 := by
  induction l generalizing i with
  | nil => simp [firstNonvanishingArea] at h
  | cons x rest ih =>
    unfold firstNonvanishingArea at h
    by_cases hx : 1/1000 < |x|
    · rw [if_pos hx] at h
      have h2 := Option.some.inj h
      rw [Prod.ext_iff] at h2
      obtain ⟨h21, h22⟩ := h2
      simp only at h21 h22
      subst h21
      subst h22
      exact ⟨Nat.succ_pos _, rfl, hx, fun j hj hji => absurd hji (Nat.not_lt_zero j)⟩
    · rw [if_neg hx] at h
      push_neg at hx
      rcases Option.map_eq_some'.mp h with ⟨⟨i', a'⟩, hrest, heq⟩
      rw [Prod.ext_iff] at heq
      obtain ⟨h21, h22⟩ := heq
      simp only at h21 h22
      subst h21
      subst h22
      obtain ⟨hi', hget, hbig, hsmall⟩ := ih i' hrest
      refine ⟨Nat.succ_lt_succ hi', hget, hbig, ?_⟩
      intro j hj hji
      cases j with
      | zero => simpa using hx
      | succ k =>
        have hk : k < rest.length := Nat.lt_of_succ_lt_succ hj
        simpa using hsmall k hk (Nat.lt_of_succ_lt_succ hji)

lemma area_of_waveform_nil_left (l : List ℚ) :
    Basis.area_of_waveform [] l = 0 := by
  simp [Basis.area_of_waveform]

lemma area_of_waveform_cons (c : ℚ) (cs : List ℚ) (a : ℚ) (as' : List ℚ) :
    Basis.area_of_waveform (c :: cs) (a :: as') = c * a + Basis.area_of_waveform cs as' := by
  simp [Basis.area_of_waveform]

lemma area_of_waveform_replicate_zero (n : Nat) (l : List ℚ) :
    Basis.area_of_waveform (List.replicate n 0) l = 0 := by
  induction n generalizing l with
  | zero => simp [Basis.area_of_waveform]
  | succ m ih =>
    cases l with
    | nil => simp [Basis.area_of_waveform]
    | cons a as' =>
      rw [List.replicate_succ, area_of_waveform_cons, ih]
      ring

lemma area_of_waveform_single (l : List ℚ) (i : Nat) (hi : i < l.length) (v : ℚ) :
    Basis.area_of_waveform ((List.replicate l.length 0).set i v) l = v * l.get ⟨i, hi⟩ := by
  induction l generalizing i with
  | nil => simp at hi
  | cons a as' ih =>
    cases i with
    | zero =>
      show Basis.area_of_waveform (v :: List.replicate as'.length 0) (a :: as') = v * a
      rw [area_of_waveform_cons, area_of_waveform_replicate_zero]
      ring
    | succ k =>
      have hk : k < as'.length := Nat.lt_of_succ_lt_succ hi
      show Basis.area_of_waveform (0 :: (List.replicate as'.length 0).set k v) (a :: as')
        = v * as'.get ⟨k, hk⟩
      rw [area_of_waveform_cons, ih k hk]
      ring

/-- C6: when some basis function has nonvanishing area (`|area| > 1e-3`),
`default_coefficients` returns a vector with exactly one nonzero entry,
located at the index of the first such basis function, scaled so that
`area_of_waveform(default_coefficients, areas)` equals exactly `1`; when
every basis function has vanishing area, it raises instead. -/
theorem default_coefficients_spec (b : Basis) :
    ((∃ a ∈ b.areas, 1/1000 < |a|) →
      ∃ cs, b.default_coefficients = Except.ok cs ∧
        cs.length = b.areas.length ∧
        ∃ i, ∃ hi : i < b.areas.length,
          1/1000 < |b.areas.get ⟨i, hi⟩| ∧
          (∀ j, ∀ hj : j < b.areas.length, j < i → |b.areas.get ⟨j, hj⟩| ≤ 1/1000) ∧
          (∀ hi' : i < cs.length, cs.get ⟨i, hi'⟩ ≠ 0) ∧
          (∀ j, ∀ hj : j < cs.length, j ≠ i → cs.get ⟨j, hj⟩ = 0) ∧
          Basis.area_of_waveform cs b.areas = 1) ∧
    ((∀ a ∈ b.areas, |a| ≤ 1/1000) →
      b.default_coefficients =
        Except.error
          "Could not generate default coefficient, as all basis functions have vanishing areas.") := by
  constructor
  · intro hex
    have hne : firstNonvanishingArea b.areas ≠ none := by
      rw [Ne, firstNonvanishingArea_none_iff]
      push_neg
      obtain ⟨a, ha, hbig⟩ := hex
      exact ⟨a, ha, by linarith⟩
    obtain ⟨⟨i, a⟩, hsome⟩ := Option.ne_none_iff_exists'.mp hne
    obtain ⟨hi, hget, hbig, hsmall⟩ := firstNonvanishingArea_some b.areas i a hsome
    have hane : a ≠ 0 := by
      intro h0
      rw [h0] at hbig
      simp at hbig
      linarith
    refine ⟨(List.replicate b.areas.length 0).set i (1 / a), ?_, ?_, i, hi, ?_, hsmall, ?_, ?_, ?_⟩
    · unfold Basis.default_coefficients
      rw [hsome]
    · simp
    · rw [hget]
      exact hbig
    · intro hi'
      have hlen : i < (List.replicate b.areas.length (0 : ℚ)).length := by
        simpa using hi
      rw [List.get_eq_getElem, List.getElem_set]
      simp only [if_pos rfl]
      exact one_div_ne_zero hane
    · intro j hj hji
      rw [List.get_eq_getElem, List.getElem_set]
      rw [if_neg (fun h => hji h.symm)]
      simp
    · rw [area_of_waveform_single b.areas i hi (1 / a), hget]
      field_simp
  · intro hall
    unfold Basis.default_coefficients
    rw [(firstNonvanishingArea_none_iff b.areas).mpr hall]

/-- Witness for C6: `demoBasis.areas = [1]` has a nonvanishing area and the
theorem produces the concrete default coefficients. -/
theorem default_coefficients_spec_witness :
    ∃ cs, demoBasis.default_coefficients = Except.ok cs ∧
      cs.length = demoBasis.areas.length ∧
      ∃ i, ∃ hi : i < demoBasis.areas.length,
        1/1000 < |demoBasis.areas.get ⟨i, hi⟩| ∧
        (∀ j, ∀ hj : j < demoBasis.areas.length, j < i →
          |demoBasis.areas.get ⟨j, hj⟩| ≤ 1/1000) ∧
        (∀ hi' : i < cs.length, cs.get ⟨i, hi'⟩ ≠ 0) ∧
        (∀ j, ∀ hj : j < cs.length, j ≠ i → cs.get ⟨j, hj⟩ = 0) ∧
        Basis.area_of_waveform cs demoBasis.areas = 1 :=
  (default_coefficients_spec demoBasis).1 (by
    refine ⟨1, ?_, by norm_num⟩
    show (1 : ℚ) ∈ demoBasis.areas
    norm_num [Basis.areas, demoBasis])

/-- C3: an optimizer exception of any class (`RuntimeError` or any other)
is converted by `simulation` into the record
`{res: None, loss_arg: original argument dict, successful: False}` rather
than propagated; `create_table` aggregates exactly one row per task
(failures included), and the row of a failed record consists of the config and
args parts only — it has no results-derived fields; in the concrete
five-task batch where the optimizer of task 3 raises, all five tasks yield
records, the table has five rows and row 3 carries only config and args
columns. -/
theorem simulation_failure_isolation :
    (∀ (L : Type) (loss : L) (e : PyError) (la : List (String × JVal)),
      simulation (Except.ok loss) (fun _ => Except.error e) la =
        Except.ok ⟨none, la, false⟩) ∧
    (∀ (results : List SimResult) (config : RunConfig),
      (create_table results config).length = results.length) ∧
    (∀ (config : RunConfig) (la : List (String × JVal)),
      createRow config ⟨none, la, false⟩ =
        dictUnion (addPrefix (configInfo config) "config")
          (addPrefix (flattenDict (some la)) "args")) ∧
    demoBatch = demoBatchResults.map Except.ok ∧
    (create_table demoBatchResults demoConfig).length = 5 ∧
    (create_table demoBatchResults demoConfig)[2]? =
      some [("configname", JVal.str "run1"), ("configdescription", JVal.str "demo run"),
        ("configloss", JVal.str "PowerLoss"),
        ("configloss_path", JVal.str "pulse_opt.integrals.losses"),
        ("argsn", JVal.num 3)] := by
  refine ⟨fun L loss e la => rfl, fun results config => ?_, fun config la => rfl, rfl, rfl, ?_⟩
  · simp [create_table]
  · simp [create_table, demoBatchResults, createRow, demoConfig, configInfo, addPrefix,
      flattenDict, flattenObj, dictUnion, dictUpdate]

lemma foldl_add_eq_sum (g : String × ℚ → ℚ) (l : List (String × ℚ)) (init : ℚ) :
    l.foldl (fun acc kv => acc + g kv) init = init + (l.map g).sum := by
  induction l generalizing init with
  | nil => simp
  | cons x xs ih =>
    simp only [List.foldl_cons, List.map_cons, List.sum_cons, ih]
    ring

/-- C5: for a factory-accepted coefficient vector, `absolute_loss` equals
the sum, over the integrands of the weighting scheme, of weight times norm of
the integral of that integrand; with a constant unit norm this gives exactly `8.0`
under `weights="equal"` and exactly `0.0` under `weights="zero"`, whatever
the coefficients. -/
theorem absolute_loss_weighting (f : PulseFactory) (c : List ℚ)
    (integrate : Pulse → String → ℚ → ℚ → ℚ) (theta a : ℚ) (p : Pulse)
    (hp : f.sample c = Except.ok p) :
    absoluteLoss f "equal" (fun _ => 1) integrate theta a c = Except.ok 8 ∧
    absoluteLoss f "zero" (fun _ => 1) integrate theta a c = Except.ok 0 ∧
    (∀ (scheme : String) (wl : List (String × ℚ)) (norm : ℚ → ℚ),
      weightLookup scheme = some wl →
      absoluteLoss f scheme norm integrate theta a c =
        Except.ok ((wl.map (fun kv => kv.2 * norm (integrate p kv.1 theta a))).sum)) := by
  have hgen : ∀ (scheme : String) (wl : List (String × ℚ)) (norm : ℚ → ℚ),
      weightLookup scheme = some wl →
      absoluteLoss f scheme norm integrate theta a c =
        Except.ok ((wl.map (fun kv => kv.2 * norm (integrate p kv.1 theta a))).sum) := by
    intro scheme wl norm hw
    unfold absoluteLoss
    rw [hp, hw]
    show Except.ok (wl.foldl (fun loss kv => loss + kv.2 * norm (integrate p kv.1 theta a)) 0)
      = Except.ok ((wl.map (fun kv => kv.2 * norm (integrate p kv.1 theta a))).sum)
    rw [foldl_add_eq_sum (fun kv => kv.2 * norm (integrate p kv.1 theta a)) wl 0, zero_add]
  refine ⟨?_, ?_, hgen⟩
  · rw [hgen "equal" equalWeightLookup (fun _ => 1) rfl]
    norm_num [equalWeightLookup, integrandNames]
  · rw [hgen "zero" zeroWeightLookup (fun _ => 1) rfl]
    norm_num [zeroWeightLookup, integrandNames]

/-- Witness for C5: `demoFactoryUnchecked` accepts `[1]` and the loss
evaluates to exactly `8` under `equal` and `0` under `zero` weights with a
constant unit norm. -/
theorem absolute_loss_weighting_witness :
    demoFactoryUnchecked.sample [1] = Except.ok demoPulse ∧
    absoluteLoss demoFactoryUnchecked "equal" (fun _ => 1) demoIntegrate 1 1 [1] = Except.ok 8 ∧
    absoluteLoss demoFactoryUnchecked "zero" (fun _ => 1) demoIntegrate 1 1 [1] = Except.ok 0 := by
  have hvalid :
      demoBasis.coefficient_are_valid [1] PulseFactory.absError = true := by
    norm_num [Basis.coefficient_are_valid, Basis.area_of_waveform,
      Basis.areas, Basis.number_of_functions, demoBasis, PulseFactory.absError]
  have hp : demoFactoryUnchecked.sample [1] = Except.ok demoPulse := by
    simp [PulseFactory.sample, demoFactoryUnchecked, hvalid, demoPulse]
  exact ⟨hp,
    (absolute_loss_weighting demoFactoryUnchecked [1] demoIntegrate 1 1 demoPulse hp).1,
    (absolute_loss_weighting demoFactoryUnchecked [1] demoIntegrate 1 1 demoPulse hp).2.1⟩

/-- C10: only exceptions of the optimizer call are converted into
`successful=False` records: the loss is constructed before the `try:` block,
so when the weighting-scheme name is unknown the `KeyError` raised while
computing the default loss inside `Loss.__init__` propagates out of
`simulation` — as does any loss-constructor error. -/
theorem loss_init_outside_try (f : PulseFactory) (scheme : String) (norm : ℚ → ℚ)
    (integrate : Pulse → String → ℚ → ℚ → ℚ) (theta a : ℚ) (hve : Bool)
    (dc : List ℚ)
    (hdc : f.basis.default_coefficients = Except.ok dc)
    (hvalid : f.basis.coefficient_are_valid dc PulseFactory.absError = true)
    (hscheme : weightLookup scheme = none)
    (opt : LossState → Except PyError (List (String × JVal)))
    (la : List (String × JVal)) :
    lossInit f scheme norm integrate theta a hve = Except.error (PyError.keyError scheme) ∧
    simulation (lossInit f scheme norm integrate theta a hve) opt la =
      Except.error (PyError.keyError scheme) ∧
    (∀ e : PyError,
      simulation (Except.error e : Except PyError LossState) opt la = Except.error e) := by
  have hinit :
      lossInit f scheme norm integrate theta a hve = Except.error (PyError.keyError scheme) := by
    unfold lossInit
    rw [hdc]
    unfold absoluteLoss
    simp [PulseFactory.sample, hvalid, hscheme]
  refine ⟨hinit, ?_, fun e => rfl⟩
  rw [hinit]
  rfl

/-- Witness for C10: on `demoFactoryUnchecked` with the unknown scheme name
`"undefined-scheme"`, the loss constructor itself fails with the `KeyError`,
which `simulation` propagates. -/
theorem loss_init_outside_try_witness :
    demoBasis.default_coefficients = Except.ok [1] ∧
    weightLookup "undefined-scheme" = none ∧
    lossInit demoFactoryUnchecked "undefined-scheme" (fun x => x) demoIntegrate 1 1 false =
      Except.error (PyError.keyError "undefined-scheme") ∧
    simulation
        (lossInit demoFactoryUnchecked "undefined-scheme" (fun x => x) demoIntegrate 1 1 false)
        (fun _ => Except.ok []) [] =
      Except.error (PyError.keyError "undefined-scheme") := by
  have hdc : demoFactoryUnchecked.basis.default_coefficients = Except.ok [1] := by
    show demoBasis.default_coefficients = Except.ok [1]
    have h1 : firstNonvanishingArea demoBasis.areas = some (0, 1) := by
      norm_num [firstNonvanishingArea, Basis.areas, demoBasis]
    unfold Basis.default_coefficients
    rw [h1]
    norm_num [Basis.areas, demoBasis]
  have hvalid :
      demoFactoryUnchecked.basis.coefficient_are_valid [1] PulseFactory.absError = true := by
    norm_num [demoFactoryUnchecked, Basis.coefficient_are_valid, Basis.area_of_waveform,
      Basis.areas, Basis.number_of_functions, demoBasis, PulseFactory.absError]
  have h := loss_init_outside_try demoFactoryUnchecked "undefined-scheme" (fun x => x)
    demoIntegrate 1 1 false [1] hdc hvalid rfl (fun _ => Except.ok []) []
  exact ⟨hdc, rfl, h.1, h.2.1⟩

/- ===================== Dictionary-update lemmas ===================== -/

lemma find?_map_update {α : Type} (d : List (String × α)) (k : String) (v : α)
    (h : ∃ p ∈ d, p.1 = k) :
    (d.map (fun p => if p.1 = k then (k, v) else p)).find? (fun p => p.1 = k)
      = some (k, v) := by
  induction d with
  | nil =>
    rcases h with ⟨p, hp, _⟩
    exact absurd hp (List.not_mem_nil p)
  | cons q d ih =>
    by_cases hq : q.1 = k
    · simp [List.find?_cons, hq]
    · have h' : ∃ p ∈ d, p.1 = k := by
        rcases h with ⟨p, hp, hpk⟩
        rcases List.mem_cons.mp hp with rfl | hpd
        · exact absurd hpk hq
        · exact ⟨p, hpd, hpk⟩
      simp [List.find?_cons, hq, ih h']

lemma find?_map_update_ne {α : Type} (d : List (String × α)) (k : String) (v : α)
    (k' : String) (hne : k' ≠ k) :
    pyLookup (d.map (fun p => if p.1 = k then (k, v) else p)) k' = pyLookup d k' := by
  induction d with
  | nil => rfl
  | cons q d ih =>
    rw [List.map_cons]
    by_cases hq : q.1 = k
    · rw [if_pos hq]
      unfold pyLookup
      rw [List.find?_cons, List.find?_cons]
      have h1 : decide ((k, v).1 = k') = false := decide_eq_false (fun hh => hne hh.symm)
      have h2 : decide (q.1 = k') = false := by
        refine decide_eq_false ?_
        rw [hq]
        exact fun hh => hne hh.symm
      rw [h1, h2]
      exact ih
    · rw [if_neg hq]
      unfold pyLookup
      rw [List.find?_cons, List.find?_cons]
      by_cases hq' : q.1 = k'
      · rw [decide_eq_true hq']
      · rw [decide_eq_false hq']
        exact ih

lemma pyLookup_dictUpdate_self {α : Type} (d : List (String × α)) (k : String) (v : α) :
    pyLookup (dictUpdate d k v) k = some v := by
  unfold dictUpdate
  by_cases h : d.any (fun p => p.1 = k)
  · rw [if_pos h]
    have hex : ∃ p ∈ d, p.1 = k := by
      rcases List.any_eq_true.mp h with ⟨p, hp, hpk⟩
      exact ⟨p, hp, of_decide_eq_true hpk⟩
    unfold pyLookup
    rw [find?_map_update d k v hex]
    rfl
  · rw [if_neg h]
    unfold pyLookup
    rw [List.find?_append]
    have hnone : List.find? (fun p => p.1 = k) d = none := by
      rw [List.find?_eq_none]
      intro x hx
      rcases List.any_eq_false.mp (Bool.of_not_eq_true h) x hx with hfalse
      exact fun hc => absurd hc (by simpa using hfalse)
    rw [hnone]
    simp [List.find?_cons]

lemma pyLookup_dictUpdate_ne {α : Type} (d : List (String × α)) (k : String) (v : α)
    (k' : String) (hne : k' ≠ k) :
    pyLookup (dictUpdate d k v) k' = pyLookup d k' := by
  unfold dictUpdate
  by_cases h : d.any (fun p => p.1 = k)
  · rw [if_pos h]
    exact find?_map_update_ne d k v k' hne
  · rw [if_neg h]
    unfold pyLookup
    rw [List.find?_append]
    have htail : List.find? (fun p => p.1 = k') [(k, v)] = none := by
      rw [List.find?_cons]
      have h1 : decide ((k, v).1 = k') = false :=
        decide_eq_false (fun hh => hne (Eq.symm hh))
      rw [h1]
      rfl
    rw [htail]
    simp

lemma pyLookup_foldl_update_ne {α : Type} (updates : List (String × α))
    (d0 : List (String × α)) (k : String) (h : ∀ kv ∈ updates, kv.1 ≠ k) :
    pyLookup (updates.foldl (fun d kv => dictUpdate d kv.1 kv.2) d0) k = pyLookup d0 k := by
  induction updates generalizing d0 with
  | nil => rfl
  | cons kv updates ih =>
    rw [List.foldl_cons, ih _ (fun x hx => h x (List.mem_cons_of_mem kv hx))]
    exact pyLookup_dictUpdate_ne d0 kv.1 kv.2 k
      (Ne.symm (h kv (List.mem_cons_self kv updates)))

lemma pyLookup_fold_zip (keys : List String) (combo : List ℚ)
    (static : List (String × ℚ)) (hnd : keys.Nodup) (i : Nat)
    (hik : i < keys.length) (hic : i < combo.length) :
    pyLookup ((keys.zip combo).foldl (fun d kv => dictUpdate d kv.1 kv.2) static)
        (keys.get ⟨i, hik⟩) = some (combo.get ⟨i, hic⟩) := by
  induction keys generalizing combo static i with
  | nil => simp at hik
  | cons k krest ih =>
    cases combo with
    | nil => simp at hic
    | cons c crest =>
      rw [List.zip_cons_cons, List.foldl_cons]
      cases i with
      | zero =>
        have hknotin : k ∉ krest := (List.nodup_cons.mp hnd).1
        have hupd : ∀ kv ∈ krest.zip crest, kv.1 ≠ k := by
          intro kv hkv heq
          exact hknotin (heq ▸ (List.of_mem_zip hkv).1)
        show pyLookup _ k = some c
        rw [pyLookup_foldl_update_ne _ _ _ hupd]
        exact pyLookup_dictUpdate_self static k c
      | succ j =>
        exact ih crest (dictUpdate static k c) (List.nodup_cons.mp hnd).2 j
          (Nat.lt_of_succ_lt_succ hik) (Nat.lt_of_succ_lt_succ hic)

/- ===================== Cartesian-product lemmas ===================== -/

lemma itertoolsProduct_length {α : Type} (ls : List (List α)) :
    (itertoolsProduct ls).length = (ls.map List.length).prod := by
  induction ls with
  | nil => rfl
  | cons l ls ih =>
    unfold itertoolsProduct
    rw [List.length_flatMap]
    simp [Function.comp_def, List.length_map, ih, List.map_const', List.sum_replicate,
      smul_eq_mul, Nat.mul_comm]

lemma mem_itertoolsProduct {α : Type} (ls : List (List α)) (c : List α) :
    c ∈ itertoolsProduct ls ↔ List.Forall₂ (fun x l => x ∈ l) c ls := by
  induction ls generalizing c with
  | nil => simp [itertoolsProduct, List.forall₂_nil_right_iff]
  | cons l ls ih =>
    unfold itertoolsProduct
    rw [List.mem_flatMap]
    constructor
    · rintro ⟨x, hx, hc⟩
      rcases List.mem_map.mp hc with ⟨c', hc', rfl⟩
      exact List.Forall₂.cons hx ((ih c').mp hc')
    · intro h
      rw [List.forall₂_cons_right_iff] at h
      rcases h with ⟨x, c', hx, hc', rfl⟩
      exact ⟨x, hx, List.mem_map.mpr ⟨c', (ih c').mpr hc', rfl⟩⟩

lemma nodup_itertoolsProduct {α : Type} (ls : List (List α)) (h : ∀ l ∈ ls, l.Nodup) :
    (itertoolsProduct ls).Nodup := by
  induction ls with
  | nil => simp [itertoolsProduct]
  | cons l ls ih =>
    unfold itertoolsProduct
    rw [List.nodup_flatMap]
    refine ⟨fun x _ => ?_, ?_⟩
    · refine List.Nodup.map ?_ (ih (fun l' hl' => h l' (List.mem_cons_of_mem _ hl')))
      intro a b hab
      exact ((List.cons.injEq _ _ _ _).mp hab).2
    · have hl : l.Nodup := h l (List.mem_cons_self _ _)
      refine hl.imp ?_
      intro a b hab
      intro c hc1 hc2
      rcases List.mem_map.mp hc1 with ⟨c1, _, rfl⟩
      rcases List.mem_map.mp hc2 with ⟨c2, _, heq⟩
      have heq' : b :: c2 = a :: c1 := heq
      exact hab ((List.cons.injEq _ _ _ _).mp heq').1.symm

/-- C7: `construct_args` returns one merged dictionary per element of the
Cartesian product of the option lists: the result length is the product of
the option-list lengths, membership is exactly "merge of one choice of
options", the literal scenario yields its six dictionaries, empty variable
arguments yield exactly the static arguments (one empty dictionary when both
are empty), and the result has no duplicates whenever the variable keys and
each option list are duplicate-free. -/
theorem construct_args_cartesian :
    (∀ (s : List (String × ℚ)) (v : List (String × List ℚ)),
      (construct_args s v).length = (v.map (fun p => p.2.length)).prod) ∧
    (∀ s, construct_args s [] = [s]) ∧
    construct_args [] [] = [([] : List (String × ℚ))] ∧
    construct_args [("a", 1)] [("scale", [1/10, 2/10]), ("n", [1, 2, 3])] =
      [[("a", 1), ("scale", 1/10), ("n", 1)],
       [("a", 1), ("scale", 1/10), ("n", 2)],
       [("a", 1), ("scale", 1/10), ("n", 3)],
       [("a", 1), ("scale", 2/10), ("n", 1)],
       [("a", 1), ("scale", 2/10), ("n", 2)],
       [("a", 1), ("scale", 2/10), ("n", 3)]] ∧
    (∀ (d s : List (String × ℚ)) (v : List (String × List ℚ)),
      d ∈ construct_args s v ↔
        ∃ combo, List.Forall₂ (fun x opts => x ∈ opts) combo (v.map Prod.snd) ∧
          d = ((v.map Prod.fst).zip combo).foldl
                (fun arg kv => dictUpdate arg kv.1 kv.2) s) ∧
    (∀ (s : List (String × ℚ)) (v : List (String × List ℚ)),
      (v.map Prod.fst).Nodup → (∀ opts ∈ v.map Prod.snd, opts.Nodup) →
      (construct_args s v).Nodup) := by
  refine ⟨?_, fun s => rfl, rfl, by rfl, ?_, ?_⟩
  · intro s v
    unfold construct_args
    rw [List.length_map, itertoolsProduct_length]
    simp [List.map_map, Function.comp_def]
  · intro d s v
    unfold construct_args
    rw [List.mem_map]
    constructor
    · rintro ⟨combo, hcombo, rfl⟩
      exact ⟨combo, (mem_itertoolsProduct _ combo).mp hcombo, rfl⟩
    · rintro ⟨combo, hcombo, rfl⟩
      exact ⟨combo, (mem_itertoolsProduct _ combo).mpr hcombo, rfl⟩
  · intro s v hkeys hopts
    unfold construct_args
    refine List.Nodup.map_on ?_ (nodup_itertoolsProduct _ hopts)
    intro c1 h1 c2 h2 heq
    by_contra hne
    have hl1 : c1.length = (v.map Prod.snd).length :=
      ((mem_itertoolsProduct _ c1).mp h1).length_eq
    have hl2 : c2.length = (v.map Prod.snd).length :=
      ((mem_itertoolsProduct _ c2).mp h2).length_eq
    rw [List.ext_get_iff] at hne
    push_neg at hne
    rcases hne (hl1.trans hl2.symm) with ⟨i, hi1, hi2, hnei⟩
    have hik : i < (v.map Prod.fst).length := by
      rw [List.length_map]
      rw [hl1, List.length_map] at hi1
      exact hi1
    have e1 := pyLookup_fold_zip (v.map Prod.fst) c1 s hkeys i hik hi1
    have e2 := pyLookup_fold_zip (v.map Prod.fst) c2 s hkeys i hik hi2
    rw [heq, e2] at e1
    exact hnei (Option.some.inj e1).symm

/-- Witness for C7: at the literal scenario the table has six entries and,
the keys and option values being duplicate-free, no duplicates. -/
theorem construct_args_cartesian_witness :
    (construct_args [("a", 1)] [("scale", [1/10, 2/10]), ("n", [1, 2, 3])]).length = 6 ∧
    (construct_args [("a", 1)] [("scale", [1/10, 2/10]), ("n", [1, 2, 3])]).Nodup := by
  have hkeys : ((([("scale", [1/10, 2/10]), ("n", [1, 2, 3])] :
      List (String × List ℚ)).map Prod.fst)).Nodup := by
    simp
  have hopts : ∀ opts ∈ (([("scale", [1/10, 2/10]), ("n", [1, 2, 3])] :
      List (String × List ℚ)).map Prod.snd), opts.Nodup := by
    intro opts hopts
    simp only [List.map_cons, List.map_nil] at hopts
    rcases List.mem_cons.mp hopts with rfl | hrest
    · norm_num
    · rcases List.mem_cons.mp hrest with rfl | habs
      · norm_num
      · exact absurd habs (List.not_mem_nil _)
  constructor
  · rw [construct_args_cartesian.1 [("a", 1)] [("scale", [1/10, 2/10]), ("n", [1, 2, 3])]]
    norm_num
  · exact construct_args_cartesian.2.2.2.2.2 [("a", 1)]
      [("scale", [1/10, 2/10]), ("n", [1, 2, 3])] hkeys hopts

/-- C8 evaluation: `construct_filename` yields
`"default-loss_param1_1_param2_2.json"` on the literal scenario, but with an
empty variable-argument list it yields `"default-loss_.json"` — with a
trailing underscore, not the `"default-loss.json"` asserted by the spec and
by the own test of the repository, `test_construct_filename_no_args`. -/
theorem construct_filename_eval :
    construct_filename "default-loss" ["param1", "param2"]
        [("param1", "1"), ("param2", "2")] "json" = "default-loss_param1_1_param2_2.json" ∧
    construct_filename "default-loss" [] [] "json" = "default-loss_.json" ∧
    construct_filename "default-loss" [] [] "json" ≠ "default-loss.json" := by
  refine ⟨rfl, rfl, ?_⟩
  decide

/-- C9 evaluation: the columns produced by `create_table` concatenate the
prefixes `config`, `args` and `results` directly onto the key names —
`add_prefix` inserts no separator — so the row of a successful record has
columns `configname`, ..., `argstheta`, `resultsx` and none of the dotted
names `config.name`, `args.theta`, `results.x` that the spec (and the
own consumers of the repository, `combined_factory.py` and `result_enricher.py`)
expect. -/
theorem create_table_prefix_eval :
    (create_table [demoResLookup] demoConfig).map (fun row => row.map Prod.fst) =
      [["configname", "configdescription", "configloss", "configloss_path",
        "argstheta", "resultsx"]] ∧
    "config.name" ∉ (createRow demoConfig demoResLookup).map Prod.fst ∧
    "args.theta" ∉ (createRow demoConfig demoResLookup).map Prod.fst ∧
    "results.x" ∉ (createRow demoConfig demoResLookup).map Prod.fst := by
  have hrow : (createRow demoConfig demoResLookup).map Prod.fst =
      ["configname", "configdescription", "configloss", "configloss_path",
       "argstheta", "resultsx"] := by
    simp [createRow, demoResLookup, demoConfig, configInfo, addPrefix, flattenDict,
      flattenObj, dictUnion, dictUpdate]
  refine ⟨?_, ?_, ?_, ?_⟩
  · simp only [create_table, List.map_cons, List.map_nil, hrow]
  · rw [hrow]
    decide
  · rw [hrow]
    decide
  · rw [hrow]
    decide

end PulseOpt
